import Mathlib

/-!
Verification of the document-processing core in `src/chroma_db/main.py`
(extract → segment → store → query) against its specification.

The Python code is shallowly embedded:
* text is `String` (Python `str`), raw file bytes are `List Nat` (values 0–255);
* Python `str.strip`, `str.split`, `str.lower` are re-implemented over `List Char`
  with structural recursion so that every definition evaluates inside the kernel;
* the external ChromaDB collection is a `List (String × String)` of
  `(id, document)` records; its `add` operation is modelled from the spec's
  description of strict insert;
* fallible operations return `Option`.
-/

/-- Python `str.strip()` (whitespace trim on both ends; ASCII whitespace model). -/
def pyStrip (s : String) : String :=
  ⟨((s.data.dropWhile Char.isWhitespace).reverse.dropWhile Char.isWhitespace).reverse⟩

/-- Python `str.lower()` (character-wise lowercasing). -/
def pyLower (s : String) : String :=
  ⟨s.data.map Char.toLower⟩

/-- Fuelled worker for `pySplit`: scans the character list left to right,
splitting at each non-overlapping occurrence of `sep`.  `cur` holds the
characters of the current piece in reverse.  The fuel is at least the length
of the remaining input, so the fuel-exhaustion branch is never reached. -/
def pySplitAux (sep : List Char) : Nat → List Char → List Char → List (List Char)
  | _, [], cur => [cur.reverse]
  | 0, rest, cur => [cur.reverse ++ rest]
  | fuel + 1, c :: cs, cur =>
    if sep.isPrefixOf (c :: cs) then
      cur.reverse :: pySplitAux sep fuel ((c :: cs).drop sep.length) []
    else
      pySplitAux sep fuel cs (c :: cur)

/-- Python `content.split(sep)` for a non-empty separator: non-overlapping,
left-to-right splitting; `"".split(sep) = [""]`. -/
def pySplit (s : String) (sep : String) : List String :=
  (pySplitAux sep.data s.data.length s.data []).map (fun l => ⟨l⟩)

/-- Segmentation step of `process_and_store_content` (main.py lines 244-251):
PDF content is split on the page marker `"Page "`, TXT content on blank lines
(`"\n\n"`); each piece is stripped and empty pieces are dropped. -/
def make_sections (content : String) (file_type : String) : List String :=
  if file_type = "PDF" then
    ((pySplit content "Page ").map pyStrip).filter (fun s => s ≠ "")
  else
    ((pySplit content "\n\n").map pyStrip).filter (fun s => s ≠ "")

/-- Record id synthesized at main.py line 260:
`f"{file_type.lower()}_doc_{idx + 1}"` for the section at 0-based index `idx`. -/
def mkId (file_type : String) (idx : Nat) : String :=
  pyLower file_type ++ "_doc_" ++ Nat.repr (idx + 1)

/-- Modelled from the spec: the external store's strict insert
(`collection.add`, main.py lines 265-268).  Per spec §3, re-inserting an id
under strict-insert semantics "is rejected/counted as a failure": the insert
appends a fresh `(id, document)` record and fails on an id that already
exists.  The failure surfaces as the exception caught at line 271. -/
def collectionAdd (store : List (String × String)) (id doc : String) :
    Option (List (String × String)) :=
  if id ∈ store.map Prod.fst then none else some (store ++ [(id, doc)])

/-- Storage loop of `process_and_store_content` (main.py lines 253-275):
walks the sections with their 0-based index, skips sections of length ≤ 10,
tries to add each remaining section under its synthesized id, catches a
failed insertion locally (the record is skipped), and counts successes. -/
def storeSections (file_type : String) :
    Nat → List String → List (String × String) → List (String × String) × Nat
  | _, [], store => (store, 0)
  | idx, s :: rest, store =>
    if s ≠ "" ∧ s.length > 10 then
      match collectionAdd store (mkId file_type idx) s with
      | some store2 =>
        let r := storeSections file_type (idx + 1) rest store2
        (r.1, r.2 + 1)
      | none => storeSections file_type (idx + 1) rest store
    else storeSections file_type (idx + 1) rest store

/-- `process_and_store_content` (main.py lines 222-275): segments the content
by file type and runs the storage loop against the given collection state.
Returns the final collection state and the number of records stored. -/
def process_and_store_content (store : List (String × String))
    (content : String) (file_type : String) : List (String × String) × Nat :=
  storeSections file_type 0 (make_sections content file_type) store

/-- Specification-side description of one storage run: the records the loop
actually appends are exactly the sections of length > 10 whose synthesized id
is not already present among the ids `ids0` that the collection held when the
run started. -/
def selRecords (file_type : String) (ids0 : List String) :
    Nat → List String → List (String × String)
  | _, [] => []
  | idx, s :: rest =>
    if s ≠ "" ∧ s.length > 10 ∧ mkId file_type idx ∉ ids0 then
      (mkId file_type idx, s) :: selRecords file_type ids0 (idx + 1) rest
    else selRecords file_type ids0 (idx + 1) rest

/-! ### Injectivity of the decimal id suffix -/

/-- Numeric value of a decimal digit character. -/
def digitVal (c : Char) : Nat := c.toNat - 48

/-- Decimal reading of a character list, most significant digit first. -/
def readNat (l : List Char) : Nat := l.foldl (fun a c => a * 10 + digitVal c) 0

theorem readNat_append_singleton (l : List Char) (c : Char) :
    readNat (l ++ [c]) = readNat l * 10 + digitVal c := by
  simp [readNat, List.foldl_append]

theorem digitVal_digitChar : ∀ d, d < 10 → digitVal (Nat.digitChar d) = d := by
  decide

theorem toDigitsCore_append (b : Nat) :
    ∀ (fuel n : Nat) (ds : List Char),
      Nat.toDigitsCore b fuel n ds = Nat.toDigitsCore b fuel n [] ++ ds := by
  intro fuel
  induction fuel with
  | zero => intro n ds; simp [Nat.toDigitsCore]
  | succ fuel ih =>
    intro n ds
    rw [Nat.toDigitsCore, Nat.toDigitsCore]
    by_cases h : n / b = 0
    · simp [h]
    · simp only [h, if_false]
      rw [ih (n / b) [Nat.digitChar (n % b)],
        ih (n / b) (Nat.digitChar (n % b) :: ds), List.append_assoc]
      rfl

theorem readNat_toDigitsCore :
    ∀ (fuel n : Nat), n < fuel → readNat (Nat.toDigitsCore 10 fuel n []) = n := by
  intro fuel
  induction fuel with
  | zero => intro n h; omega
  | succ fuel ih =>
    intro n h
    rw [Nat.toDigitsCore]
    by_cases h0 : n / 10 = 0
    · have hn : n < 10 := by omega
      simp only [h0, if_true]
      have : readNat [Nat.digitChar (n % 10)] = digitVal (Nat.digitChar (n % 10)) := by
        simp [readNat]
      rw [this, Nat.mod_eq_of_lt hn, digitVal_digitChar n hn]
    · have hge : 10 ≤ n := by
        by_contra hlt
        exact h0 (Nat.div_eq_of_lt (by omega))
      have hdiv : n / 10 < fuel := by
        have h1 : n / 10 < n := Nat.div_lt_self (by omega) (by omega)
        omega
      simp only [h0, if_false]
      rw [toDigitsCore_append 10 fuel (n / 10) [Nat.digitChar (n % 10)],
        readNat_append_singleton, ih (n / 10) hdiv,
        digitVal_digitChar (n % 10) (Nat.mod_lt n (by omega))]
      omega

theorem readNat_repr (n : Nat) : readNat (Nat.repr n).data = n := by
  have : (Nat.repr n).data = Nat.toDigitsCore 10 (n + 1) n [] := rfl
  rw [this]
  exact readNat_toDigitsCore (n + 1) n (Nat.lt_succ_self n)

theorem repr_injective {m n : Nat} (h : Nat.repr m = Nat.repr n) : m = n := by
  have hd : (Nat.repr m).data = (Nat.repr n).data := by rw [h]
  have hm := readNat_repr m
  have hn := readNat_repr n
  rw [hd, hn] at hm
  exact hm.symm

theorem mkId_injective (file_type : String) {i j : Nat}
    (h : mkId file_type i = mkId file_type j) : i = j := by
  unfold mkId at h
  have hd : (pyLower file_type).data ++ ("_doc_".data ++ (Nat.repr (i + 1)).data)
      = (pyLower file_type).data ++ ("_doc_".data ++ (Nat.repr (j + 1)).data) := by
    have := congrArg String.data h
    simpa [String.data_append] using this
  have h1 := List.append_cancel_left hd
  have h2 := List.append_cancel_left h1
  have h3 : Nat.repr (i + 1) = Nat.repr (j + 1) := String.ext h2
  have := repr_injective h3
  omega

/-! ### The storage loop computes `selRecords` -/

theorem selRecords_ignore (file_type : String) (i : Nat) :
    ∀ (sections : List String) (idx : Nat) (ids0 : List String), i < idx →
      selRecords file_type (ids0 ++ [mkId file_type i]) idx sections
        = selRecords file_type ids0 idx sections := by
  intro sections
  induction sections with
  | nil => intro idx ids0 h; rfl
  | cons s rest ih =>
    intro idx ids0 h
    have hne : mkId file_type idx ∉ [mkId file_type i] := by
      simp only [List.mem_singleton]
      intro he
      have := mkId_injective file_type he
      omega
    have hmem : (mkId file_type idx ∉ ids0 ++ [mkId file_type i])
        ↔ (mkId file_type idx ∉ ids0) := by
      simp only [List.mem_append]
      constructor
      · intro hx hy
        exact hx (Or.inl hy)
      · intro hx hy
        rcases hy with hy | hy
        · exact hx hy
        · exact hne hy
    simp only [selRecords, hmem, ih (idx + 1) ids0 (by omega)]

theorem storeSections_spec (file_type : String) :
    ∀ (sections : List String) (idx : Nat) (store : List (String × String)),
      storeSections file_type idx sections store
        = (store ++ selRecords file_type (store.map Prod.fst) idx sections,
           (selRecords file_type (store.map Prod.fst) idx sections).length) := by
  intro sections
  induction sections with
  | nil => intro idx store; simp [storeSections, selRecords]
  | cons s rest ih =>
    intro idx store
    by_cases hlong : s ≠ "" ∧ s.length > 10
    · by_cases hmem : mkId file_type idx ∈ store.map Prod.fst
      · have hsel : ¬ (s ≠ "" ∧ s.length > 10 ∧ mkId file_type idx ∉ store.map Prod.fst) := by
          intro hx
          exact hx.2.2 hmem
        simp only [storeSections, collectionAdd, if_pos hmem, if_pos hlong, selRecords,
          if_neg hsel]
        exact ih (idx + 1) store
      · have hsel : s ≠ "" ∧ s.length > 10 ∧ mkId file_type idx ∉ store.map Prod.fst :=
          ⟨hlong.1, hlong.2, hmem⟩
        simp only [storeSections, collectionAdd, if_neg hmem, if_pos hlong, selRecords,
          if_pos hsel]
        rw [ih (idx + 1) (store ++ [(mkId file_type idx, s)])]
        have hmap : (store ++ [(mkId file_type idx, s)]).map Prod.fst
            = store.map Prod.fst ++ [mkId file_type idx] := by simp
        rw [hmap, selRecords_ignore file_type idx rest (idx + 1) (store.map Prod.fst)
          (by omega)]
        simp [List.append_assoc]
    · have hsel : ¬ (s ≠ "" ∧ s.length > 10 ∧ mkId file_type idx ∉ store.map Prod.fst) := by
        intro hx
        exact hlong ⟨hx.1, hx.2.1⟩
      simp only [storeSections, if_neg hlong, selRecords, if_neg hsel]
      exact ih (idx + 1) store

theorem selRecords_nil_eq (file_type : String) :
    ∀ (sections : List String) (idx : Nat),
      selRecords file_type [] idx sections
        = ((List.enumFrom idx sections).filter (fun p => p.2.length > 10)).map
            (fun p => (mkId file_type p.1, p.2)) := by
  intro sections
  induction sections with
  | nil => intro idx; rfl
  | cons s rest ih =>
    intro idx
    have hiff : (s ≠ "" ∧ s.length > 10 ∧ mkId file_type idx ∉ ([] : List String))
        ↔ s.length > 10 := by
      constructor
      · exact fun h => h.2.1
      · intro h
        have hs : s ≠ "" := by
          intro he
          rw [he] at h
          exact absurd h (by decide)
        exact ⟨hs, h, List.not_mem_nil _⟩
    by_cases hl : s.length > 10
    · simp only [selRecords, List.enumFrom]
      rw [if_pos (hiff.mpr hl), ih (idx + 1)]
      simp [List.filter_cons, hl]
    · simp only [selRecords, List.enumFrom]
      rw [if_neg (fun hx => hl (hiff.mp hx)), ih (idx + 1)]
      simp [List.filter_cons, hl]

theorem selRecords_mem (file_type : String) :
    ∀ (sections : List String) (idx : Nat) (ids0 : List String) (r : String × String),
      r ∈ selRecords file_type ids0 idx sections →
      ∃ j, idx ≤ j ∧ r.1 = mkId file_type j := by
  intro sections
  induction sections with
  | nil => intro idx ids0 r h; exact absurd h (List.not_mem_nil r)
  | cons s rest ih =>
    intro idx ids0 r h
    by_cases hc : s ≠ "" ∧ s.length > 10 ∧ mkId file_type idx ∉ ids0
    · simp only [selRecords] at h
      rw [if_pos hc] at h
      rcases List.mem_cons.mp h with h | h
      · exact ⟨idx, le_refl idx, by rw [h]⟩
      · obtain ⟨j, hj, hr⟩ := ih (idx + 1) ids0 r h
        exact ⟨j, by omega, hr⟩
    · simp only [selRecords] at h
      rw [if_neg hc] at h
      obtain ⟨j, hj, hr⟩ := ih (idx + 1) ids0 r h
      exact ⟨j, by omega, hr⟩

theorem selRecords_pairwise (file_type : String) :
    ∀ (sections : List String) (idx : Nat) (ids0 : List String),
      (selRecords file_type ids0 idx sections).Pairwise (fun a b => a.1 ≠ b.1) := by
  intro sections
  induction sections with
  | nil => intro idx ids0; exact List.Pairwise.nil
  | cons s rest ih =>
    intro idx ids0
    by_cases hc : s ≠ "" ∧ s.length > 10 ∧ mkId file_type idx ∉ ids0
    · simp only [selRecords]
      rw [if_pos hc]
      refine List.Pairwise.cons ?_ (ih (idx + 1) ids0)
      intro b hb
      obtain ⟨j, hj, hb1⟩ := selRecords_mem file_type rest (idx + 1) ids0 b hb
      show mkId file_type idx ≠ b.1
      rw [hb1]
      intro he
      have := mkId_injective file_type he
      omega
    · simp only [selRecords]
      rw [if_neg hc]
      exact ih (idx + 1) ids0

theorem selRecords_covered (file_type : String) :
    ∀ (sections : List String) (idx : Nat) (ids0 : List String),
      (∀ p ∈ List.enumFrom idx sections, p.2.length > 10 → mkId file_type p.1 ∈ ids0) →
      selRecords file_type ids0 idx sections = [] := by
  intro sections
  induction sections with
  | nil => intro idx ids0 h; rfl
  | cons s rest ih =>
    intro idx ids0 h
    have hcnd : ¬ (s ≠ "" ∧ s.length > 10 ∧ mkId file_type idx ∉ ids0) := by
      intro hx
      exact hx.2.2 (h (idx, s) (List.mem_cons_self _ _) hx.2.1)
    simp only [selRecords]
    rw [if_neg hcnd]
    refine ih (idx + 1) ids0 ?_
    intro p hp hl
    exact h p (List.mem_cons_of_mem (idx, s) hp) hl

/-! ### Claims about segmentation, ids and storage -/

theorem enumFrom_filter_snd :
    ∀ (sections : List String) (idx : Nat),
      ((List.enumFrom idx sections).filter (fun p => p.2.length > 10)).map Prod.snd
        = sections.filter (fun s => s.length > 10) := by
  intro sections
  induction sections with
  | nil => intro idx; rfl
  | cons s rest ih =>
    intro idx
    simp only [List.enumFrom, List.filter_cons]
    by_cases hl : s.length > 10
    · simp [hl, ih (idx + 1)]
    · simp [hl, ih (idx + 1)]

/-- Plain-text file of Scenario B: three paragraphs, the middle one 5 characters long. -/
def scenarioB_content : String :=
  "The first paragraph is long.\n\nhi!!!\n\nThe third paragraph is long."

/-- C5: segmentation followed by storage drops every section whose trimmed length
is ≤ 10 characters and stores every section whose trimmed length exceeds 10
(sections are already trimmed by `make_sections`); on a plain-text file with 3
paragraphs, one of them 5 characters long, exactly 2 records are stored. -/
theorem store_filters_short_sections (content : String) :
    ((process_and_store_content [] content "TXT").1.map Prod.snd
        = (make_sections content "TXT").filter (fun s => s.length > 10))
    ∧ ((process_and_store_content [] content "TXT").2
        = ((make_sections content "TXT").filter (fun s => s.length > 10)).length)
    ∧ (process_and_store_content [] scenarioB_content "TXT").2 = 2 := by
  refine ⟨?_, ?_, by decide⟩
  · rw [process_and_store_content, storeSections_spec "TXT" (make_sections content "TXT") 0 []]
    simp only [List.map_nil, List.nil_append]
    rw [selRecords_nil_eq "TXT" (make_sections content "TXT") 0]
    simp only [List.map_map, Function.comp]
    exact enumFrom_filter_snd (make_sections content "TXT") 0
  · rw [process_and_store_content, storeSections_spec "TXT" (make_sections content "TXT") 0 []]
    simp only [List.map_nil]
    rw [selRecords_nil_eq "TXT" (make_sections content "TXT") 0]
    have h := congrArg List.length (enumFrom_filter_snd (make_sections content "TXT") 0)
    simpa using h

/-- C2: each stored record's id is synthesized deterministically as
`{file_type.lower()}_doc_{idx+1}` from the source type and the section's
0-based position in the order the segmenter emits the sections, and the ids
are pairwise distinct.  Both sides of the first equation are functions of
`(content, file_type)` alone, so re-running segmentation plus storage on the
same document yields identical ids in identical order. -/
theorem record_ids_deterministic (content file_type : String) :
    ((process_and_store_content [] content file_type).1.map Prod.fst
        = ((List.enum (make_sections content file_type)).filter
            (fun p => p.2.length > 10)).map (fun p => mkId file_type p.1))
    ∧ ((process_and_store_content [] content file_type).1.map Prod.fst).Pairwise (· ≠ ·) := by
  constructor
  · rw [process_and_store_content,
      storeSections_spec file_type (make_sections content file_type) 0 []]
    simp only [List.map_nil, List.nil_append]
    rw [selRecords_nil_eq file_type (make_sections content file_type) 0]
    simp only [List.map_map, Function.comp]
    rfl
  · rw [process_and_store_content,
      storeSections_spec file_type (make_sections content file_type) 0 []]
    simp only [List.map_nil, List.nil_append]
    exact List.pairwise_map.mpr
      (selRecords_pairwise file_type (make_sections content file_type) 0 ([] : List String))

/-- C1 (amended): running `process_and_store_content` a second time with the
same content and file type leaves the stored records unchanged, because every
insertion of the second run is rejected as a duplicate id by the strict
insert and caught locally; the second run reports 0 successes and nothing is
duplicated or replaced. -/
theorem second_store_run_is_noop (content file_type : String) :
    process_and_store_content (process_and_store_content [] content file_type).1
        content file_type
      = ((process_and_store_content [] content file_type).1, 0) := by
  rw [process_and_store_content, process_and_store_content,
    storeSections_spec file_type (make_sections content file_type) 0 []]
  simp only [List.map_nil, List.nil_append]
  rw [storeSections_spec file_type (make_sections content file_type) 0
    (selRecords file_type [] 0 (make_sections content file_type))]
  have hcov : selRecords file_type
      ((selRecords file_type [] 0 (make_sections content file_type)).map Prod.fst) 0
      (make_sections content file_type) = [] := by
    apply selRecords_covered
    intro p hp hl
    rw [selRecords_nil_eq file_type (make_sections content file_type) 0]
    rw [List.map_map]
    refine List.mem_map.mpr ⟨p, ?_, rfl⟩
    exact List.mem_filter.mpr ⟨hp, by simpa using hl⟩
  rw [hcov]
  simp

/-- Text of the C1 counterexample: a single paragraph longer than 10 characters. -/
def upsert_cex_content : String := "This is a long enough paragraph."

/-- C1 counterexample: the first run stores 1 record; the second run with the
same sections and file type reports 0 successful insertions — the re-insert
of the existing id fails (and is caught) instead of replacing the record, so
the second run does not behave as an upsert. -/
theorem second_store_run_not_upsert :
    (process_and_store_content [] upsert_cex_content "TXT").2 = 1
    ∧ (process_and_store_content (process_and_store_content [] upsert_cex_content "TXT").1
        upsert_cex_content "TXT").2 = 0
    ∧ (process_and_store_content (process_and_store_content [] upsert_cex_content "TXT").1
        upsert_cex_content "TXT").2
      ≠ (process_and_store_content [] upsert_cex_content "TXT").2 := by
  refine ⟨by decide, by decide, by decide⟩

/-- Collection state with a record already occupying the id `txt_doc_1`. -/
def c8_seed : List (String × String) := [("txt_doc_1", "a previously stored record")]

/-- Two long paragraphs; against `c8_seed` the first insertion collides and fails. -/
def c8_content : String := "First long paragraph here.\n\nSecond long paragraph here."

/-- C8: every individual record-insertion failure is caught locally and
excluded from the success count without aborting the remaining insertions:
the run appends exactly the records of `selRecords` (the long sections whose
id was free when the run started — colliding insertions are skipped, later
ones still happen), and the returned count is exactly the number of records
actually appended.  In the concrete instance, the first insertion fails on an
occupied id, the run continues, stores the second record, and reports 1. -/
theorem insertion_failures_skipped_and_counted (store : List (String × String))
    (content file_type : String) :
    (process_and_store_content store content file_type
        = (store ++ selRecords file_type (store.map Prod.fst) 0
              (make_sections content file_type),
           (selRecords file_type (store.map Prod.fst) 0
              (make_sections content file_type)).length))
    ∧ ((process_and_store_content store content file_type).1.length
        = store.length + (process_and_store_content store content file_type).2)
    ∧ (process_and_store_content c8_seed c8_content "TXT").2 = 1
    ∧ ((process_and_store_content c8_seed c8_content "TXT").1.map Prod.fst
        = ["txt_doc_1", "txt_doc_2"]) := by
  refine ⟨storeSections_spec file_type (make_sections content file_type) 0 store,
    ?_, by decide, by decide⟩
  rw [process_and_store_content, storeSections_spec file_type (make_sections content file_type) 0 store]
  simp

/-! ### Query clamping, relevance mapping, and the orchestrator -/

/-- Modelled from the spec: the external similarity search (`collection.query`)
returns the `nResults` nearest of the `storedCount` stored records; a request
for more results than the collection holds may fail on the vendor side — the
clamp at main.py line 355 exists exactly to prevent that. -/
def similaritySearchCount (storedCount nResults : Nat) : Option Nat :=
  if storedCount < nResults then none else some nResults

/-- Result budget computed at main.py line 355: `n_results=min(5, docs_count)`,
generalized over the requested maximum (the code instantiates it with `5`). -/
def queryNResults (requested docsCount : Nat) : Nat := min requested docsCount

/-- Query step of `main` (main.py lines 350-356) for a requested maximum
`requested` against a collection of `storedCount` records. -/
def runQuery (requested storedCount : Nat) : Option Nat :=
  similaritySearchCount storedCount (queryNResults requested storedCount)

/-- C3: the query requests exactly `min(requested, storedCount)` results —
never more than the stored count — so it cannot fail merely because the
requested count exceeds the stored count, and it yields `min(requested,
storedCount)` results; with `requested = 10` against 3 stored records it
yields exactly 3 results. -/
theorem query_clamped_to_stored_count (k storedCount : Nat) :
    runQuery k storedCount = some (min k storedCount)
    ∧ queryNResults k storedCount ≤ storedCount
    ∧ runQuery 10 3 = some 3 := by
  refine ⟨?_, Nat.min_le_right k storedCount, by decide⟩
  rw [runQuery, queryNResults, similaritySearchCount,
    if_neg (Nat.not_lt.mpr (Nat.min_le_right k storedCount))]

/-- Relevance mapping at main.py line 368: `relevance_score = 1 - distance`.
Distances are modelled as rationals. -/
def relevance_score (distance : ℚ) : ℚ := 1 - distance

/-- Result display loop of `main` (main.py lines 364-376): documents and
distances returned by the external search are zipped in the order they
arrived and each distance is mapped to its relevance score; no re-sorting. -/
def displayResults (docs : List String) (distances : List ℚ) : List (String × ℚ) :=
  (docs.zip distances).map (fun p => (p.1, relevance_score p.2))

theorem zip_map_fst {α β : Type} :
    ∀ (l1 : List α) (l2 : List β), (l1.zip l2).map Prod.fst = l1.take l2.length := by
  intro l1
  induction l1 with
  | nil => intro l2; simp
  | cons a l1 ih =>
    intro l2
    cases l2 with
    | nil => simp
    | cons b l2 => simp [ih l2]

theorem zip_map_snd {α β : Type} :
    ∀ (l1 : List α) (l2 : List β), (l1.zip l2).map Prod.snd = l2.take l1.length := by
  intro l1
  induction l1 with
  | nil => intro l2; simp
  | cons a l1 ih =>
    intro l2
    cases l2 with
    | nil => simp
    | cons b l2 => simp [ih l2]

/-- C4: the emitted results keep exactly the order the external search
returned them — the documents come out as the prefix of the returned document
list, and the scores are the returned distances (in order) mapped through
`1 - distance`; consequently, if the returned distances are ascending, the
emitted relevance scores are monotonically non-increasing. -/
theorem relevance_scores_order (docs : List String) (distances : List ℚ) :
    ((displayResults docs distances).map Prod.fst = docs.take distances.length)
    ∧ ((displayResults docs distances).map Prod.snd
        = (distances.take docs.length).map relevance_score)
    ∧ (distances.Pairwise (· ≤ ·) →
        ((displayResults docs distances).map Prod.snd).Pairwise (fun a b => b ≤ a)) := by
  have h1 : (displayResults docs distances).map Prod.fst = docs.take distances.length := by
    rw [displayResults, List.map_map]
    have hc : (Prod.fst ∘ fun p : String × ℚ => (p.1, relevance_score p.2)) = Prod.fst := rfl
    rw [hc, zip_map_fst]
  have h2 : (displayResults docs distances).map Prod.snd
      = (distances.take docs.length).map relevance_score := by
    rw [displayResults, List.map_map]
    have hc : (Prod.snd ∘ fun p : String × ℚ => (p.1, relevance_score p.2))
        = relevance_score ∘ Prod.snd := rfl
    rw [hc, ← List.map_map, zip_map_snd]
  refine ⟨h1, h2, ?_⟩
  intro hmono
  rw [h2]
  have htake : (distances.take docs.length).Pairwise (· ≤ ·) :=
    hmono.sublist (List.take_sublist docs.length distances)
  refine List.pairwise_map.mpr (htake.imp ?_)
  intro a b hab
  simpa [relevance_score] using sub_le_sub_left hab 1

/-- Witness for `relevance_scores_order`: ascending concrete distances produce
non-increasing relevance scores. -/
theorem relevance_scores_order_witness :
    List.Pairwise (· ≤ ·) [(0 : ℚ), 1/2, 1]
    ∧ ((displayResults ["alpha", "beta", "gamma"] [(0 : ℚ), 1/2, 1]).map Prod.snd).Pairwise
        (fun a b => b ≤ a) :=
  ⟨by norm_num [List.pairwise_cons],
   (relevance_scores_order ["alpha", "beta", "gamma"] [(0 : ℚ), 1/2, 1]).2.2
     (by norm_num [List.pairwise_cons])⟩

/-- Terminal report of a `main` run. -/
inductive SessionOutcome where
  | extractionFailed
  | noDocsStored
  | results (shown : Nat)
  | queryFailed
deriving DecidableEq

/-- Which pipeline stages a `main` run executed, and how it ended. -/
structure PipelineTrace where
  ranStorage : Bool
  ranQuery : Bool
  outcome : SessionOutcome
deriving DecidableEq

/-- Orchestration skeleton of `main` (main.py lines 324-388): extraction
feeds storage feeds the query.  `extracted` is the extractor's result
(`None` on failure; Python's `if not content` also treats an empty string as
failure).  A failed or empty extraction returns before segmentation/storage;
a stored count of 0 returns before any query; otherwise the clamped query
runs, a query failure being caught (the session still completes). -/
def mainPipeline (file_type : String) (extracted : Option String) : PipelineTrace :=
  match extracted with
  | none => ⟨false, false, .extractionFailed⟩
  | some content =>
    if content = "" then ⟨false, false, .extractionFailed⟩
    else
      let r := process_and_store_content [] content file_type
      if r.2 = 0 then ⟨true, false, .noDocsStored⟩
      else
        match similaritySearchCount r.1.length (queryNResults 5 r.2) with
        | some shown => ⟨true, true, .results shown⟩
        | none => ⟨true, true, .queryFailed⟩

/-- C9: no later pipeline stage runs after an earlier stage yields nothing
useful — failed or empty extraction halts with the extraction-failure report
before storage ever runs, and a stored count of 0 halts with the
"no documents stored" report before any query is attempted; when the stored
count is positive the query stage does run. -/
theorem pipeline_short_circuits (file_type : String) (extracted : Option String) :
    ((extracted = none ∨ extracted = some "") →
      mainPipeline file_type extracted = ⟨false, false, .extractionFailed⟩)
    ∧ (∀ content, extracted = some content → content ≠ "" →
        (process_and_store_content [] content file_type).2 = 0 →
        mainPipeline file_type extracted = ⟨true, false, .noDocsStored⟩)
    ∧ (∀ content, extracted = some content → content ≠ "" →
        (process_and_store_content [] content file_type).2 ≠ 0 →
        (mainPipeline file_type extracted).ranQuery = true) := by
  refine ⟨?_, ?_, ?_⟩
  · rintro (rfl | rfl)
    · rfl
    · rfl
  · rintro content rfl hne h0
    simp [mainPipeline, hne, h0]
  · rintro content rfl hne h0
    simp only [mainPipeline, if_neg hne]
    rw [if_neg h0]
    cases similaritySearchCount (process_and_store_content [] content file_type).1.length
        (queryNResults 5 (process_and_store_content [] content file_type).2) <;> rfl

/-- Witness for `pipeline_short_circuits`: a failed extraction halts before
storage, and a too-short document (0 records stored) halts before the query. -/
theorem pipeline_short_circuits_witness :
    mainPipeline "TXT" none = ⟨false, false, .extractionFailed⟩
    ∧ mainPipeline "TXT" (some "short") = ⟨true, false, .noDocsStored⟩ :=
  ⟨(pipeline_short_circuits "TXT" none).1 (Or.inl rfl),
   (pipeline_short_circuits "TXT" (some "short")).2.1 "short" rfl (by decide) (by decide)⟩

/-! ### PDF extraction -/

/-- Page accumulation loop of `extract_text_from_pdf` (main.py lines 157-162):
for each page in order, if the stripped page text is non-empty, append
`"Page {page_num+1}:\n" + page_text + "\n\n"` to the accumulator. -/
def pdfFold : List String → Nat → String → String
  | [], _, acc => acc
  | page :: rest, page_num, acc =>
    pdfFold rest (page_num + 1)
      (if pyStrip page ≠ "" then
        acc ++ ("Page " ++ Nat.repr (page_num + 1) ++ ":\n" ++ page ++ "\n\n")
      else acc)

/-- `extract_text_from_pdf` (main.py lines 127-175).  The external PDF parse
is modelled by the input: `none` when the file cannot be opened/parsed (the
`except` at line 164), `some pages` with the per-page text that PyPDF2
extracts otherwise.  An empty accumulated text yields `None` (line 169). -/
def extract_text_from_pdf (opened : Option (List String)) : Option String :=
  match opened with
  | none => none
  | some pages =>
    let text_content := pdfFold pages 0 ""
    if text_content = "" then none else some text_content

/-- Marker block the spec prescribes for a kept page: the page marker
(1-based), the page text and a blank-line separator. -/
def pageBlock (p : Nat × String) : String :=
  "Page " ++ Nat.repr (p.1 + 1) ++ ":\n" ++ p.2 ++ "\n\n"

/-- Specification-side PDF text: pages in order, whitespace-only pages
skipped entirely, each remaining page rendered as its marker block, all
concatenated. -/
def pdfSpecConcat (pages : List String) : String :=
  String.join (((List.enum pages).filter (fun p => pyStrip p.2 ≠ "")).map pageBlock)

theorem strFoldl_append : ∀ (l : List String) (a : String),
    l.foldl (· ++ ·) a = a ++ l.foldl (· ++ ·) "" := by
  intro l
  induction l with
  | nil => intro a; rw [List.foldl, List.foldl, String.append_empty]
  | cons b l ih =>
    intro a
    simp only [List.foldl]
    rw [ih (a ++ b), ih ("" ++ b), String.empty_append, String.append_assoc]

theorem strJoin_cons (s : String) (l : List String) :
    String.join (s :: l) = s ++ String.join l := by
  show (s :: l).foldl (· ++ ·) "" = s ++ l.foldl (· ++ ·) ""
  simp only [List.foldl]
  rw [String.empty_append, strFoldl_append l s]

theorem strAppend_eq_empty {s t : String} : s ++ t = "" ↔ s = "" ∧ t = "" := by
  constructor
  · intro h
    have hd : s.data ++ t.data = [] := by
      have := congrArg String.data h
      simpa [String.data_append] using this
    rcases List.append_eq_nil.mp hd with ⟨hs, ht⟩
    exact ⟨String.ext hs, String.ext ht⟩
  · rintro ⟨rfl, rfl⟩
    rfl

theorem pdfFold_acc : ∀ (pages : List String) (n : Nat) (acc : String),
    pdfFold pages n acc = acc ++ pdfFold pages n "" := by
  intro pages
  induction pages with
  | nil => intro n acc; rw [pdfFold, pdfFold, String.append_empty]
  | cons p rest ih =>
    intro n acc
    simp only [pdfFold]
    by_cases hp : pyStrip p ≠ ""
    · rw [if_pos hp, if_pos hp,
        ih (n + 1) (acc ++ ("Page " ++ Nat.repr (n + 1) ++ ":\n" ++ p ++ "\n\n")),
        ih (n + 1) ("" ++ ("Page " ++ Nat.repr (n + 1) ++ ":\n" ++ p ++ "\n\n")),
        String.empty_append, String.append_assoc]
    · rw [if_neg hp, if_neg hp, ih (n + 1) acc, ih (n + 1) "", String.empty_append]

theorem pdfFold_eq_join : ∀ (pages : List String) (n : Nat),
    pdfFold pages n ""
      = String.join (((List.enumFrom n pages).filter
          (fun p => pyStrip p.2 ≠ "")).map pageBlock) := by
  intro pages
  induction pages with
  | nil => intro n; rfl
  | cons p rest ih =>
    intro n
    by_cases hp : pyStrip p ≠ ""
    · have hfil : (List.enumFrom n (p :: rest)).filter (fun q => pyStrip q.2 ≠ "")
          = (n, p) :: (List.enumFrom (n + 1) rest).filter (fun q => pyStrip q.2 ≠ "") := by
        simp [List.enumFrom, List.filter_cons, hp]
      rw [hfil, List.map_cons, strJoin_cons]
      simp only [pdfFold]
      rw [if_pos hp, pdfFold_acc rest (n + 1), ih (n + 1), String.empty_append]
      rfl
    · have hfil : (List.enumFrom n (p :: rest)).filter (fun q => pyStrip q.2 ≠ "")
          = (List.enumFrom (n + 1) rest).filter (fun q => pyStrip q.2 ≠ "") := by
        simp [List.enumFrom, List.filter_cons, hp]
      rw [hfil]
      simp only [pdfFold]
      rw [if_neg hp, ih (n + 1)]

theorem pageBlock_ne_empty (p : Nat × String) : pageBlock p ≠ "" := by
  intro he
  have := congrArg String.data he
  simp [pageBlock, String.data_append] at this

theorem pdfJoin_empty_iff : ∀ (pages : List String) (n : Nat),
    (String.join (((List.enumFrom n pages).filter
        (fun p => pyStrip p.2 ≠ "")).map pageBlock) = "")
      ↔ ∀ p ∈ pages, pyStrip p = "" := by
  intro pages
  induction pages with
  | nil =>
    intro n
    constructor
    · intro h p hp
      exact absurd hp (List.not_mem_nil p)
    · intro h
      rfl
  | cons p rest ih =>
    intro n
    by_cases hp : pyStrip p ≠ ""
    · have hfil : (List.enumFrom n (p :: rest)).filter (fun q => pyStrip q.2 ≠ "")
          = (n, p) :: (List.enumFrom (n + 1) rest).filter (fun q => pyStrip q.2 ≠ "") := by
        simp [List.enumFrom, List.filter_cons, hp]
      rw [hfil, List.map_cons, strJoin_cons]
      constructor
      · intro h
        exact absurd (strAppend_eq_empty.mp h).1 (pageBlock_ne_empty (n, p))
      · intro h
        exact absurd (h p (List.mem_cons_self p rest)) hp
    · have hfil : (List.enumFrom n (p :: rest)).filter (fun q => pyStrip q.2 ≠ "")
          = (List.enumFrom (n + 1) rest).filter (fun q => pyStrip q.2 ≠ "") := by
        simp [List.enumFrom, List.filter_cons, hp]
      rw [hfil, ih (n + 1)]
      push_neg at hp
      constructor
      · intro h q hq
        rcases List.mem_cons.mp hq with hq | hq
        · rw [hq]
          exact hp
        · exact h q hq
      · intro h q hq
        exact h q (List.mem_cons_of_mem p hq)

/-- C6: the PDF extractor returns the failure signal when the file cannot be
opened/parsed; otherwise it concatenates the pages' text in page order, each
page whose stripped text is non-empty rendered as `"Page {n}:\n"` (1-based)
followed by the page text and a blank-line separator, whitespace-only pages
emitting nothing; the failure signal is returned exactly when every page is
whitespace-only (empty accumulated text). -/
theorem pdf_extraction_spec :
    (extract_text_from_pdf none = none)
    ∧ ∀ pages, extract_text_from_pdf (some pages)
        = if ∀ p ∈ pages, pyStrip p = "" then none else some (pdfSpecConcat pages) := by
  refine ⟨rfl, ?_⟩
  intro pages
  show (if pdfFold pages 0 "" = "" then none else some (pdfFold pages 0 "")) = _
  rw [pdfFold_eq_join pages 0]
  by_cases h : ∀ p ∈ pages, pyStrip p = ""
  · rw [if_pos ((pdfJoin_empty_iff pages 0).mpr h), if_pos h]
  · rw [if_neg (fun hx => h ((pdfJoin_empty_iff pages 0).mp hx)), if_neg h]
    rfl

/-! ### TXT extraction -/

/-- Encoding list tried by `extract_text_from_txt` (main.py line 203). -/
def encodings_to_try : List String := ["utf-8", "latin-1", "cp1252", "iso-8859-1"]

/-- Decode loop of `extract_text_from_txt` (main.py lines 206-219): try each
encoding in order; the first successful decode is returned, a decode error
(`UnicodeDecodeError`) moves on to the next encoding; `none` when the list is
exhausted.  `decode` models the external codec machinery of `open`/`read`. -/
def tryEncodings (decode : String → List Nat → Option String) (file_bytes : List Nat) :
    List String → Option String
  | [] => none
  | enc :: rest =>
    match decode enc file_bytes with
    | some content => some content
    | none => tryEncodings decode file_bytes rest

/-- `extract_text_from_txt` (main.py lines 178-219) over the bytes of an
openable file. -/
def extract_text_from_txt (decode : String → List Nat → Option String)
    (file_bytes : List Nat) : Option String :=
  tryEncodings decode file_bytes encodings_to_try

theorem tryEncodings_eq_findSome (decode : String → List Nat → Option String)
    (file_bytes : List Nat) :
    ∀ l, tryEncodings decode file_bytes l = l.findSome? (fun enc => decode enc file_bytes) := by
  intro l
  induction l with
  | nil => rfl
  | cons enc rest ih =>
    simp only [tryEncodings, List.findSome?]
    cases decode enc file_bytes
    · exact ih
    · rfl

theorem tryEncodings_none_iff (decode : String → List Nat → Option String)
    (file_bytes : List Nat) :
    ∀ l, tryEncodings decode file_bytes l = none
        ↔ ∀ enc ∈ l, decode enc file_bytes = none := by
  intro l
  induction l with
  | nil => simp [tryEncodings]
  | cons enc rest ih =>
    simp only [tryEncodings]
    cases h : decode enc file_bytes with
    | none => simp [h, ih]
    | some c => simp [h]

/-- C7: the text extractor attempts the encodings utf-8, latin-1, cp1252,
iso-8859-1 in that fixed order, returns the content produced by the first
encoding that decodes without error, and returns the failure signal if and
only if every encoding in the list fails — never a silent empty result. -/
theorem txt_extraction_first_success (decode : String → List Nat → Option String)
    (file_bytes : List Nat) :
    (extract_text_from_txt decode file_bytes
        = encodings_to_try.findSome? (fun enc => decode enc file_bytes))
    ∧ (extract_text_from_txt decode file_bytes = none
        ↔ ∀ enc ∈ encodings_to_try, decode enc file_bytes = none)
    ∧ encodings_to_try = ["utf-8", "latin-1", "cp1252", "iso-8859-1"] :=
  ⟨tryEncodings_eq_findSome decode file_bytes encodings_to_try,
   tryEncodings_none_iff decode file_bytes encodings_to_try, rfl⟩

/-- Model of Python's built-in `latin-1` codec, which the source selects via
`open(..., encoding='latin-1')`: the decode is total — every byte `b`
(0–255) decodes to the code point of the same value, so no byte sequence can
raise `UnicodeDecodeError`. -/
def latin1Decode (file_bytes : List Nat) : String :=
  ⟨file_bytes.map (fun b => Char.ofNat b)⟩

/-- Model of the codec lookup performed by `open(..., encoding=...)` for the
four encodings the source tries.  The utf-8 and cp1252 codecs can reject
input, so they stay abstract; `latin-1` and `iso-8859-1` accept every byte
sequence (both are the total single-byte codec `latin1Decode`). -/
def pythonDecode (utf8Decode cp1252Decode : List Nat → Option String)
    (enc : String) (file_bytes : List Nat) : Option String :=
  if enc = "utf-8" then utf8Decode file_bytes
  else if enc = "latin-1" then some (latin1Decode file_bytes)
  else if enc = "cp1252" then cp1252Decode file_bytes
  else if enc = "iso-8859-1" then some (latin1Decode file_bytes)
  else none

/-- C10: the exhausted-encodings failure branch of `extract_text_from_txt` is
unreachable for any openable file: whatever the utf-8 and cp1252 codecs do,
the second encoding tried (`latin-1`) decodes every byte sequence, so the
function always returns a decoded string, never the failure signal. -/
theorem txt_extraction_never_fails (utf8Decode cp1252Decode : List Nat → Option String)
    (file_bytes : List Nat) :
    (extract_text_from_txt (pythonDecode utf8Decode cp1252Decode) file_bytes).isSome = true := by
  simp only [extract_text_from_txt, encodings_to_try, tryEncodings, pythonDecode]
  cases h : utf8Decode file_bytes <;> simp [h]
